import Mathlib

/-!
Verification of the 7TV paint registry (`src/providers/seventv/SeventvPaints.cpp`).

Shallow embedding conventions:
* doubles are modelled as exact rationals (`ℚ`); the algorithms under study only
  compare, copy and add small decimal constants, which the rational model mirrors;
* `shared_ptr<Paint>` identity is modelled by an explicit heap: every
  `make_shared` appends the paint to `heap` and the pointer is the index; two
  references are the identical shared instance exactly when the indices agree;
* `QJson` values arrive already typed (`toString`/`toInt`/`toDouble`/`toBool`
  defaulting is absorbed into the typed record fields);
* `std::unordered_map<QString, _>` is an association list with unique keys,
  written through `assocSet` (insert-or-replace) and erased by filtering.
-/

/-- QColor as constructed by `QColor{red, green, blue, alpha}` with `int` channels. -/
structure QColor where
  red : Int
  green : Int
  blue : Int
  alpha : Int
deriving Repr, DecidableEq

/-- `rgbaToQColor` (SeventvPaints.cpp lines 17-25): extract the four 8-bit
channels of a packed 32-bit RGBA integer, `R` in bits 31-24 down to `A` in
bits 7-0. -/
def rgbaToQColor (color : Nat) : QColor :=
  { red := ((color >>> 24) &&& 0xFF : Nat)
  , green := ((color >>> 16) &&& 0xFF : Nat)
  , blue := ((color >>> 8) &&& 0xFF : Nat)
  , alpha := ((color &&& 0xFF : Nat)) }

/-- Modelled from the spec: the packed 32-bit color layout `R(bits 31-24)
G(23-16) B(15-8) A(7-0)`; the encoder itself is not part of the source, which
only decodes. For channels below 256 this arithmetic form places each channel
in exactly those bits. -/
def encodeRGBA (r g b a : Nat) : Nat :=
  r * 2 ^ 24 + g * 2 ^ 16 + b * 2 ^ 8 + a

/-- `parsePaintColor` (lines 27-35): a JSON `null` yields no color, otherwise
the packed integer is decoded. -/
def parsePaintColor (color : Option Nat) : Option QColor :=
  match color with
  | none => none
  | some c => some (rgbaToQColor c)

/-- One element of the wire `stops` array: `{color : int, at : double}`. -/
structure StopJson where
  color : Nat
  at_ : ℚ
deriving Repr, DecidableEq

/-- `QGradientStop`: a (position, color) pair. -/
structure GradientStop where
  position : ℚ
  color : QColor
deriving Repr, DecidableEq

/-- Loop of `parsePaintStops` (lines 42-60), carrying `lastStop`: if the
current position equals `lastStop` it is nudged by `0.0000001`, and `lastStop`
becomes the (post-nudge) appended position. -/
def parsePaintStopsFrom (lastStop : ℚ) : List StopJson → List GradientStop
  | [] => []
  | stop :: rest =>
    let position := if stop.at_ = lastStop then stop.at_ + 1 / 10000000 else stop.at_
    ⟨position, rgbaToQColor stop.color⟩ :: parsePaintStopsFrom position rest

/-- `parsePaintStops` (lines 37-63): `lastStop` starts at the sentinel `-1`. -/
def parsePaintStops (stops : List StopJson) : List GradientStop :=
  parsePaintStopsFrom (-1) stops

/-- One element of the wire `drop_shadows` array. -/
structure ShadowJson where
  xOffset : ℚ
  yOffset : ℚ
  radius : ℚ
  color : Nat
deriving Repr, DecidableEq

/-- `PaintDropShadow` value as constructed in `parseDropShadows`. -/
structure PaintDropShadow where
  xOffset : ℚ
  yOffset : ℚ
  radius : ℚ
  color : QColor
deriving Repr, DecidableEq

/-- `parseDropShadows` (lines 65-83): each record yields one shadow. -/
def parseDropShadows (dropShadows : List ShadowJson) : List PaintDropShadow :=
  dropShadows.map fun s => ⟨s.xOffset, s.yOffset, s.radius, rgbaToQColor s.color⟩

/-- Modelled from the spec: the shared bitmap handle returned by the external
image-by-URL resolver (`Image::fromUrl`), opaque to the registry. -/
structure Image where
  url : String
deriving Repr, DecidableEq

/-- A paint wire record, with the fields `parsePaint` and the registry read. -/
structure PaintJson where
  name : String
  id : String
  color : Option Nat
  repeat_ : Bool
  angle : ℚ
  stops : List StopJson
  dropShadows : List ShadowJson
  function : String
  imageUrl : String
  users : List String
deriving Repr, DecidableEq

/-- The paint model: `LinearGradientPaint`, `RadialGradientPaint` and
`UrlPaint`, with the constructor arguments used in `parsePaint`. -/
inductive Paint where
  | linearGradient (name id : String) (color : Option QColor)
      (stops : List GradientStop) (repeat_ : Bool) (angle : ℚ)
      (dropShadows : List PaintDropShadow)
  | radialGradient (name id : String) (stops : List GradientStop)
      (repeat_ : Bool) (dropShadows : List PaintDropShadow)
  | url (name id : String) (image : Image) (dropShadows : List PaintDropShadow)
deriving Repr, DecidableEq

/-- The `id` member shared by every paint variant. -/
def Paint.id : Paint → String
  | .linearGradient _ id _ _ _ _ _ => id
  | .radialGradient _ id _ _ _ => id
  | .url _ id _ _ => id

/-- The `name` member shared by every paint variant. -/
def Paint.name : Paint → String
  | .linearGradient name _ _ _ _ _ _ => name
  | .radialGradient name _ _ _ _ => name
  | .url name _ _ _ => name

/-- `parsePaint` (lines 85-124), parameterised by the external image resolver
(`Image::fromUrl` at scale 1, which may produce no handle). Dispatch is on the
`function` string, two case-sensitive spellings per variant; anything else
yields `none`. -/
def parsePaint (resolve : String → Option Image) (j : PaintJson) : Option Paint :=
  let color := parsePaintColor j.color
  let stops := parsePaintStops j.stops
  let shadows := parseDropShadows j.dropShadows
  if j.function = "LINEAR_GRADIENT" ∨ j.function = "linear-gradient" then
    some (.linearGradient j.name j.id color stops j.repeat_ j.angle shadows)
  else if j.function = "RADIAL_GRADIENT" ∨ j.function = "radial-gradient" then
    some (.radialGradient j.name j.id stops j.repeat_ shadows)
  else if j.function = "URL" ∨ j.function = "url" then
    match resolve j.imageUrl with
    | none => none
    | some image => some (.url j.name j.id image shadows)
  else
    none

/-- Find in an association list (`unordered_map::find`). -/
def assocFind (m : List (String × Nat)) (k : String) : Option Nat :=
  match m with
  | [] => none
  | e :: rest => if e.1 = k then some e.2 else assocFind rest k

/-- Insert-or-replace in an association list (`unordered_map::operator[] =`). -/
def assocSet (m : List (String × Nat)) (k : String) (v : Nat) : List (String × Nat) :=
  match m with
  | [] => [(k, v)]
  | e :: rest => if e.1 = k then (k, v) :: rest else e :: assocSet rest k v

/-- Erase a key from an association list (`unordered_map::erase`). -/
def assocErase (m : List (String × Nat)) (k : String) : List (String × Nat) :=
  m.filter fun e => e.1 ≠ k

/-- The registry state: the two maps of `SeventvPaints`, plus the heap of
shared `Paint` allocations (indices play the role of `shared_ptr` identity). -/
structure SeventvPaints where
  heap : List Paint
  knownPaints : List (String × Nat)
  paintMap : List (String × Nat)
deriving Repr, DecidableEq

/-- The state of a freshly constructed registry: both maps empty. -/
def emptyRegistry : SeventvPaints := ⟨[], [], []⟩

/-- `SeventvPaints::getPaint` (lines 135-146): look the username up in
`paintMap_`, returning the stored shared reference. -/
def getPaint (s : SeventvPaints) (userName : String) : Option Nat :=
  assocFind s.paintMap userName

/-- The paint value a successful `getPaint` dereferences to. -/
def lookupPaint (s : SeventvPaints) (userName : String) : Option Paint :=
  (getPaint s userName).bind s.heap.get?

/-- `SeventvPaints::addPaint` (lines 148-166): a no-op when the id is already
known; otherwise parse, silently drop a failed parse, and insert the freshly
allocated paint under the record's id. -/
def addPaint (resolve : String → Option Image) (s : SeventvPaints)
    (j : PaintJson) : SeventvPaints :=
  if (assocFind s.knownPaints j.id).isSome then
    s
  else
    match parsePaint resolve j with
    | none => s
    | some p =>
      { s with
        heap := s.heap ++ [p]
        knownPaints := assocSet s.knownPaints j.id s.heap.length }

/-- `SeventvPaints::assignPaintToUser` (lines 168-178): when the id is known,
store that shared reference for the username; otherwise do nothing. -/
def assignPaintToUser (s : SeventvPaints) (paintID userName : String) :
    SeventvPaints :=
  match assocFind s.knownPaints paintID with
  | some r => { s with paintMap := assocSet s.paintMap userName r }
  | none => s

/-- `SeventvPaints::clearPaintFromUser` (lines 180-190): erase the username's
entry only when one exists and the paint it references has the given id. -/
def clearPaintFromUser (s : SeventvPaints) (paintID userName : String) :
    SeventvPaints :=
  match assocFind s.paintMap userName with
  | some r =>
    match s.heap.get? r with
    | some p =>
      if p.id = paintID then
        { s with paintMap := assocErase s.paintMap userName }
      else s
    | none => s
  | none => s

/-- Loop body of `SeventvPaints::loadSeventvPaints` (lines 208-225): skip a
record that fails to parse; otherwise allocate the paint, overwrite
`knownPaints_[id]`, and point every listed username at the new allocation. -/
def mergeRecord (resolve : String → Option Image) (s : SeventvPaints)
    (j : PaintJson) : SeventvPaints :=
  match parsePaint resolve j with
  | none => s
  | some p =>
    { s with
      heap := s.heap ++ [p]
      knownPaints := assocSet s.knownPaints j.id s.heap.length
      paintMap := j.users.foldl (fun m u => assocSet m u s.heap.length) s.paintMap }

/-- The bulk-merge pass of `loadSeventvPaints` over the decoded `paints`
array, under the single exclusive lock. -/
def bulkMerge (resolve : String → Option Image) (s : SeventvPaints)
    (records : List PaintJson) : SeventvPaints :=
  records.foldl (mergeRecord resolve) s

/-- One mutating registry operation. -/
inductive Op where
  | add (j : PaintJson)
  | assign (paintID userName : String)
  | clear (paintID userName : String)
  | bulk (records : List PaintJson)
deriving Repr

/-- Apply one operation to the registry state. -/
def applyOp (resolve : String → Option Image) (s : SeventvPaints) : Op → SeventvPaints
  | .add j => addPaint resolve s j
  | .assign paintID userName => assignPaintToUser s paintID userName
  | .clear paintID userName => clearPaintFromUser s paintID userName
  | .bulk records => bulkMerge resolve s records

/-- Apply a sequence of operations to the registry state. -/
def applyOps (resolve : String → Option Image) (s : SeventvPaints)
    (ops : List Op) : SeventvPaints :=
  ops.foldl (applyOp resolve) s

/-! ### Association-list lemmas -/

theorem assocFind_assocSet (m : List (String × Nat)) (k : String) (v : Nat)
    (k' : String) :
    assocFind (assocSet m k v) k' = if k = k' then some v else assocFind m k' := by
  induction m with
  | nil => simp [assocFind, assocSet]
  | cons e rest ih =>
    simp only [assocSet]
    by_cases h1 : e.1 = k
    · simp only [if_pos h1, assocFind]
      by_cases h2 : k = k'
      · simp [h2]
      · have h3 : ¬ e.1 = k' := fun he => h2 (h1.symm.trans he)
        simp [h2, h3]
    · simp only [if_neg h1, assocFind, ih]
      by_cases h2 : e.1 = k'
      · have h3 : ¬ k = k' := fun hk => h1 (h2.trans hk.symm)
        simp [h2, h3]
      · simp [h2]

theorem isSome_assocFind_assocSet (m : List (String × Nat)) (k : String)
    (v : Nat) (k' : String) (h : (assocFind m k').isSome) :
    (assocFind (assocSet m k v) k').isSome := by
  rw [assocFind_assocSet]
  by_cases hk : k = k' <;> simp [hk, h]

theorem assocFind_assocErase (m : List (String × Nat)) (k : String)
    (k' : String) :
    assocFind (assocErase m k) k' = if k' = k then none else assocFind m k' := by
  induction m with
  | nil => simp [assocFind, assocErase]
  | cons e rest ih =>
    simp only [assocErase] at ih ⊢
    rw [List.filter_cons]
    by_cases h1 : e.1 = k
    · rw [if_neg (by simp [h1])]
      rw [ih]
      by_cases h2 : k' = k
      · simp [h2]
      · have h3 : ¬ e.1 = k' := fun he => h2 (he.symm.trans h1)
        simp [h2, assocFind, h3]
    · rw [if_pos (by simp [h1])]
      simp only [assocFind]
      by_cases h2 : e.1 = k'
      · have h3 : ¬ k' = k := fun hk => h1 (h2.trans hk)
        simp [h2, h3]
      · rw [if_neg h2, ih]
        by_cases h3 : k' = k <;> simp [h3, h2]

theorem assocFind_foldl_assocSet_not_mem (users : List String)
    (m : List (String × Nat)) (r : Nat) (u : String) (h : u ∉ users) :
    assocFind (users.foldl (fun m' u' => assocSet m' u' r) m) u = assocFind m u := by
  induction users generalizing m with
  | nil => rfl
  | cons v rest ih =>
    have hvu : ¬ v = u := fun hv => h (hv ▸ List.mem_cons_self v rest)
    have hrest : u ∉ rest := fun hr => h (List.mem_cons_of_mem v hr)
    simp only [List.foldl_cons]
    rw [ih _ hrest, assocFind_assocSet]
    simp [hvu]

theorem assocFind_foldl_assocSet_mem (users : List String)
    (m : List (String × Nat)) (r : Nat) (u : String) (h : u ∈ users) :
    assocFind (users.foldl (fun m' u' => assocSet m' u' r) m) u = some r := by
  induction users generalizing m with
  | nil => cases h
  | cons v rest ih =>
    simp only [List.foldl_cons]
    by_cases hrest : u ∈ rest
    · exact ih _ hrest
    · have hv : v = u := by
        rcases List.mem_cons.mp h with h1 | h1
        · exact h1.symm
        · exact absurd h1 hrest
      rw [assocFind_foldl_assocSet_not_mem _ _ _ _ hrest, assocFind_assocSet]
      simp [hv]

theorem assocFind_foldl_assocSet_cases (users : List String)
    (m : List (String × Nat)) (r : Nat) (u : String) (x : Nat)
    (h : assocFind (users.foldl (fun m' u' => assocSet m' u' r) m) u = some x) :
    x = r ∨ assocFind m u = some x := by
  by_cases hu : u ∈ users
  · rw [assocFind_foldl_assocSet_mem _ _ _ _ hu] at h
    exact Or.inl (Option.some_inj.mp h).symm
  · rw [assocFind_foldl_assocSet_not_mem _ _ _ _ hu] at h
    exact Or.inr h

/-! ### Heap lemmas -/

theorem heap_get_append (l l' : List Paint) (r : Nat) (p : Paint)
    (h : l.get? r = some p) : (l ++ l').get? r = some p := by
  have hr : r < l.length := by
    by_contra hr
    rw [List.get?_eq_none.mpr (Nat.le_of_not_lt hr)] at h
    cases h
  rw [List.get?_append hr]
  exact h

/-! ### Field lemmas for the parser -/

theorem parsePaint_id_name (resolve : String → Option Image) (j : PaintJson)
    (p : Paint) (h : parsePaint resolve j = some p) :
    p.id = j.id ∧ p.name = j.name := by
  unfold parsePaint at h
  split_ifs at h
  · cases h
    exact ⟨rfl, rfl⟩
  · cases h
    exact ⟨rfl, rfl⟩
  · cases hr : resolve j.imageUrl with
    | none => rw [hr] at h; cases h
    | some img =>
      rw [hr] at h
      cases h
      exact ⟨rfl, rfl⟩

/-! ### Coherence invariant -/

/-- Every entry of `knownPaints` references a live heap paint whose `id` field
is the entry's key. -/
def KnownCoherent (s : SeventvPaints) : Prop :=
  ∀ id r, assocFind s.knownPaints id = some r →
    ∃ p, s.heap.get? r = some p ∧ p.id = id

/-- Every entry of `paintMap` references a live heap paint whose id is still a
key of `knownPaints`. -/
def AssignCoherent (s : SeventvPaints) : Prop :=
  ∀ u r, assocFind s.paintMap u = some r →
    ∃ p, s.heap.get? r = some p ∧ (assocFind s.knownPaints p.id).isSome

/-- The registry invariant preserved by every operation. -/
def Coherent (s : SeventvPaints) : Prop := KnownCoherent s ∧ AssignCoherent s

theorem coherent_empty : Coherent emptyRegistry := by
  constructor <;> intro a b h <;> simp [emptyRegistry, assocFind] at h

theorem coherent_addPaint (resolve : String → Option Image) (s : SeventvPaints)
    (j : PaintJson) (h : Coherent s) : Coherent (addPaint resolve s j) := by
  obtain ⟨hK, hA⟩ := h
  unfold addPaint
  split
  · exact ⟨hK, hA⟩
  · cases hp : parsePaint resolve j with
    | none => exact ⟨hK, hA⟩
    | some p =>
      obtain ⟨hid, -⟩ := parsePaint_id_name resolve j p hp
      constructor
      · unfold KnownCoherent
        intro id r hr
        simp only at hr ⊢
        rw [assocFind_assocSet] at hr
        split_ifs at hr with hij
        · cases hr
          exact ⟨p, List.get?_concat_length _ _, hij ▸ hid⟩
        · obtain ⟨q, hq, hqid⟩ := hK id r hr
          exact ⟨q, heap_get_append _ _ _ _ hq, hqid⟩
      · unfold AssignCoherent
        intro u r hr
        simp only at hr ⊢
        obtain ⟨q, hq, hqs⟩ := hA u r hr
        exact ⟨q, heap_get_append _ _ _ _ hq, isSome_assocFind_assocSet _ _ _ _ hqs⟩

theorem coherent_assignPaintToUser (s : SeventvPaints) (pid u : String)
    (h : Coherent s) : Coherent (assignPaintToUser s pid u) := by
  obtain ⟨hK, hA⟩ := h
  unfold assignPaintToUser
  cases hfind : assocFind s.knownPaints pid with
  | none => exact ⟨hK, hA⟩
  | some r =>
    refine ⟨hK, ?_⟩
    unfold AssignCoherent
    intro u' r' hr'
    simp only at hr' ⊢
    rw [assocFind_assocSet] at hr'
    split_ifs at hr' with hu
    · cases hr'
      obtain ⟨p, hp, hpid⟩ := hK pid r hfind
      refine ⟨p, hp, ?_⟩
      rw [hpid, hfind]
      rfl
    · exact hA u' r' hr'

theorem coherent_clearPaintFromUser (s : SeventvPaints) (pid u : String)
    (h : Coherent s) : Coherent (clearPaintFromUser s pid u) := by
  obtain ⟨hK, hA⟩ := h
  unfold clearPaintFromUser
  cases h1 : assocFind s.paintMap u with
  | none => exact ⟨hK, hA⟩
  | some r =>
    dsimp only
    cases h2 : s.heap.get? r with
    | none => exact ⟨hK, hA⟩
    | some p =>
      dsimp only
      by_cases h3 : p.id = pid
      · rw [if_pos h3]
        refine ⟨hK, ?_⟩
        unfold AssignCoherent
        intro u' r' hr'
        simp only at hr' ⊢
        rw [assocFind_assocErase] at hr'
        split_ifs at hr' with hu
        exact hA u' r' hr'
      · rw [if_neg h3]
        exact ⟨hK, hA⟩

theorem coherent_mergeRecord (resolve : String → Option Image)
    (s : SeventvPaints) (j : PaintJson) (h : Coherent s) :
    Coherent (mergeRecord resolve s j) := by
  obtain ⟨hK, hA⟩ := h
  unfold mergeRecord
  cases hp : parsePaint resolve j with
  | none => exact ⟨hK, hA⟩
  | some p =>
    obtain ⟨hid, -⟩ := parsePaint_id_name resolve j p hp
    constructor
    · unfold KnownCoherent
      intro id r hr
      simp only at hr ⊢
      rw [assocFind_assocSet] at hr
      split_ifs at hr with hij
      · cases hr
        exact ⟨p, List.get?_concat_length _ _, hij ▸ hid⟩
      · obtain ⟨q, hq, hqid⟩ := hK id r hr
        exact ⟨q, heap_get_append _ _ _ _ hq, hqid⟩
    · unfold AssignCoherent
      intro u r hr
      simp only at hr ⊢
      rcases assocFind_foldl_assocSet_cases _ _ _ _ _ hr with hcase | hcase
      · subst hcase
        refine ⟨p, List.get?_concat_length _ _, ?_⟩
        rw [hid, assocFind_assocSet]
        simp
      · obtain ⟨q, hq, hqs⟩ := hA u r hcase
        exact ⟨q, heap_get_append _ _ _ _ hq, isSome_assocFind_assocSet _ _ _ _ hqs⟩

theorem coherent_bulkMerge (resolve : String → Option Image)
    (s : SeventvPaints) (records : List PaintJson) (h : Coherent s) :
    Coherent (bulkMerge resolve s records) := by
  induction records generalizing s with
  | nil => exact h
  | cons j rest ih =>
    exact ih (mergeRecord resolve s j) (coherent_mergeRecord resolve s j h)

theorem coherent_applyOp (resolve : String → Option Image) (s : SeventvPaints)
    (op : Op) (h : Coherent s) : Coherent (applyOp resolve s op) := by
  cases op with
  | add j => exact coherent_addPaint resolve s j h
  | assign pid u => exact coherent_assignPaintToUser s pid u h
  | clear pid u => exact coherent_clearPaintFromUser s pid u h
  | bulk records => exact coherent_bulkMerge resolve s records h

theorem coherent_applyOps (resolve : String → Option Image)
    (ops : List Op) : Coherent (applyOps resolve emptyRegistry ops) := by
  suffices h : ∀ s, Coherent s → Coherent (applyOps resolve s ops) from
    h emptyRegistry coherent_empty
  induction ops with
  | nil => exact fun s hs => hs
  | cons op rest ih =>
    exact fun s hs => ih (applyOp resolve s op) (coherent_applyOp resolve s op hs)

/-! ### Small helper lemmas about the operations -/

theorem addPaint_known_id_noop (resolve : String → Option Image)
    (s : SeventvPaints) (j : PaintJson)
    (h : (assocFind s.knownPaints j.id).isSome) : addPaint resolve s j = s := by
  unfold addPaint
  rw [if_pos h]

theorem addPaint_insert (resolve : String → Option Image) (s : SeventvPaints)
    (j : PaintJson) (p : Paint) (hnew : assocFind s.knownPaints j.id = none)
    (hparse : parsePaint resolve j = some p) :
    addPaint resolve s j =
      { s with
        heap := s.heap ++ [p]
        knownPaints := assocSet s.knownPaints j.id s.heap.length } := by
  unfold addPaint
  rw [hnew, hparse]
  rfl

/-! ### Sample data for concrete witnesses -/

/-- An image resolver used in concrete witnesses. -/
def noResolve : String → Option Image := fun _ => none

/-- A minimal linear-gradient record with id `p1` that parses successfully. -/
def sampleLinearRecord : PaintJson :=
  { name := "Candy"
  , id := "p1"
  , color := none
  , repeat_ := false
  , angle := 0
  , stops := []
  , dropShadows := []
  , function := "LINEAR_GRADIENT"
  , imageUrl := ""
  , users := [] }

/-! ### The claims -/

/-- C6: for any channel values `r`, `g`, `b`, `a` in 0-255, decoding the
packed 32-bit integer laid out as `R` in bits 31-24, `G` in 23-16, `B` in
15-8, `A` in 7-0 with `rgbaToQColor` returns exactly those channels. -/
theorem rgbaToQColor_round_trip (r g b a : Nat) (hr : r < 256) (hg : g < 256)
    (hb : b < 256) (ha : a < 256) :
    rgbaToQColor (encodeRGBA r g b a) =
      { red := (r : Int), green := (g : Int), blue := (b : Int),
        alpha := (a : Int) } := by
  have h255 : ∀ n : Nat, n &&& 255 = n % 256 := fun n => by
    simpa using Nat.and_pow_two_sub_one_eq_mod n 8
  unfold rgbaToQColor encodeRGBA
  simp only [Nat.shiftRight_eq_div_pow, h255]
  congr 1 <;> omega

/-- Witness for C6 at the concrete channels (18, 52, 86, 120). -/
theorem rgbaToQColor_round_trip_witness :
    18 < 256 ∧ 52 < 256 ∧ 86 < 256 ∧ 120 < 256 ∧
      rgbaToQColor (encodeRGBA 18 52 86 120) =
        { red := 18, green := 52, blue := 86, alpha := 120 } :=
  ⟨by decide, by decide, by decide, by decide,
    rgbaToQColor_round_trip 18 52 86 120 (by decide) (by decide) (by decide)
      (by decide)⟩

/-- C7: two consecutive stop records sharing one position (away from the `-1`
sentinel) parse to strictly increasing positions: the first keeps its
position and the second becomes that position plus 1e-7. -/
theorem parsePaintStops_two_equal (p : ℚ) (c1 c2 : Nat) (hp : p ≠ -1) :
    (parsePaintStops [⟨c1, p⟩, ⟨c2, p⟩]).map GradientStop.position
        = [p, p + 1 / 10000000] ∧
      List.Pairwise (· < ·)
        ((parsePaintStops [⟨c1, p⟩, ⟨c2, p⟩]).map GradientStop.position) := by
  have heq : (parsePaintStops [⟨c1, p⟩, ⟨c2, p⟩]).map GradientStop.position
      = [p, p + 1 / 10000000] := by
    simp [parsePaintStops, parsePaintStopsFrom, hp]
  refine ⟨heq, ?_⟩
  rw [heq]
  have hlt : p < p + 1 / 10000000 := by linarith
  simp [List.pairwise_cons, hlt]

/-- Witness for C7 at position 1/2 (the spec's example). -/
theorem parsePaintStops_two_equal_witness :
    ((1 : ℚ)/2 ≠ -1) ∧
      ((parsePaintStops [⟨1, 1/2⟩, ⟨2, 1/2⟩]).map GradientStop.position
          = [1/2, 1/2 + 1 / 10000000] ∧
        List.Pairwise (· < ·)
          ((parsePaintStops [⟨1, 1/2⟩, ⟨2, 1/2⟩]).map GradientStop.position)) :=
  ⟨by norm_num, parsePaintStops_two_equal (1/2) 1 2 (by norm_num)⟩

/-- Counterexample to C2: three stops all at position 1/2 parse to the
positions 1/2, 1/2 + 1e-7, 1/2, which are not strictly increasing: the third
stop is compared against the post-nudge `lastStop` value 1/2 + 1e-7, does not
equal it, and is therefore appended un-nudged. -/
theorem parsePaintStops_three_equal_counterexample :
    (parsePaintStops [⟨1, 1/2⟩, ⟨2, 1/2⟩, ⟨3, 1/2⟩]).map GradientStop.position
        = [1/2, 1/2 + 1 / 10000000, 1/2] ∧
      ¬ List.Pairwise (· < ·)
        ((parsePaintStops [⟨1, 1/2⟩, ⟨2, 1/2⟩, ⟨3, 1/2⟩]).map
          GradientStop.position) := by
  have heq : (parsePaintStops [⟨1, 1/2⟩, ⟨2, 1/2⟩, ⟨3, 1/2⟩]).map
      GradientStop.position = [1/2, 1/2 + 1 / 10000000, 1/2] := by
    norm_num [parsePaintStops, parsePaintStopsFrom]
  refine ⟨heq, ?_⟩
  rw [heq]
  intro hpw
  have h3 := (List.pairwise_cons.mp hpw).1 (1/2) (by simp)
  exact lt_irrefl _ h3

/-- C2 (amended): for three consecutive stops sharing one position `p` (away
from the `-1` sentinel), the parser produces `p`, `p + 1e-7`, `p`: updating
`lastStop` to the post-nudge value makes the third raw position differ from
`lastStop`, so it is appended un-nudged and the result is not strictly
increasing. -/
theorem parsePaintStops_three_equal (p : ℚ) (c1 c2 c3 : Nat) (hp : p ≠ -1) :
    (parsePaintStops [⟨c1, p⟩, ⟨c2, p⟩, ⟨c3, p⟩]).map GradientStop.position
        = [p, p + 1 / 10000000, p] ∧
      ¬ List.Pairwise (· < ·)
        ((parsePaintStops [⟨c1, p⟩, ⟨c2, p⟩, ⟨c3, p⟩]).map
          GradientStop.position) := by
  have hne : p ≠ p + 1 / 10000000 := by
    intro h
    have : (0 : ℚ) = 1 / 10000000 := by linarith
    norm_num at this
  have heq : (parsePaintStops [⟨c1, p⟩, ⟨c2, p⟩, ⟨c3, p⟩]).map
      GradientStop.position = [p, p + 1 / 10000000, p] := by
    simp [parsePaintStops, parsePaintStopsFrom, hp, hne]
  refine ⟨heq, ?_⟩
  rw [heq]
  intro hpw
  have h3 := (List.pairwise_cons.mp hpw).1 p (by simp)
  exact lt_irrefl _ h3

/-- Witness for the amended C2 at position 1/2. -/
theorem parsePaintStops_three_equal_witness :
    ((1 : ℚ)/2 ≠ -1) ∧
      ((parsePaintStops [⟨1, 1/2⟩, ⟨2, 1/2⟩, ⟨3, 1/2⟩]).map
          GradientStop.position = [1/2, 1/2 + 1 / 10000000, 1/2] ∧
        ¬ List.Pairwise (· < ·)
          ((parsePaintStops [⟨1, 1/2⟩, ⟨2, 1/2⟩, ⟨3, 1/2⟩]).map
            GradientStop.position)) :=
  ⟨by norm_num, parsePaintStops_three_equal (1/2) 1 2 3 (by norm_num)⟩

/-- The paint `parsePaint` produces for `sampleLinearRecord`. -/
def sampleLinearPaint : Paint :=
  .linearGradient "Candy" "p1" none [] false 0 []

/-- The operation sequence refuting instance-identity: add `p1`, assign it to
alice, then bulk-merge a batch containing `p1` again (which re-allocates). -/
def identityBreakingOps : List Op :=
  [Op.add sampleLinearRecord, Op.assign "p1" "alice",
    Op.bulk [sampleLinearRecord]]

/-- Counterexample to C1: after add `p1`, assign `p1` to alice, and a bulk
merge containing `p1` again, alice's assignment still holds the first
allocation (heap index 0) while `knownPaints` now stores the bulk merge's
fresh allocation (heap index 1) — the assignment is no longer the identical
shared instance of any value in `knownPaints`. -/
theorem registry_identity_counterexample :
    ¬ (∀ (resolve : String → Option Image) (ops : List Op),
        ∀ e ∈ (applyOps resolve emptyRegistry ops).paintMap,
          e.2 ∈ (applyOps resolve emptyRegistry ops).knownPaints.map Prod.snd) := by
  intro h
  have hmem : ("alice", 0) ∈
      (applyOps noResolve emptyRegistry identityBreakingOps).paintMap := by
    decide
  have hval := h noResolve identityBreakingOps ("alice", 0) hmem
  exact absurd hval (by decide)

/-- C1 (amended): after any sequence of `addPaint`, `assignPaintToUser`,
`clearPaintFromUser` and bulk-merge operations from the empty registry, every
value stored in `paintMap` is a live shared paint whose id is currently a key
of `knownPaints`; instance-identity with the current `knownPaints` entry can
fail after a bulk merge overwrites that id, but id-level membership always
holds. -/
theorem registry_assignments_reference_known_ids
    (resolve : String → Option Image) (ops : List Op) (u : String) (r : Nat)
    (h : assocFind (applyOps resolve emptyRegistry ops).paintMap u = some r) :
    ∃ p, (applyOps resolve emptyRegistry ops).heap.get? r = some p ∧
      (assocFind (applyOps resolve emptyRegistry ops).knownPaints p.id).isSome :=
  (coherent_applyOps resolve ops).2 u r h

/-- Witness for the amended C1 at the very op sequence that breaks
instance-identity. -/
theorem registry_assignments_reference_known_ids_witness :
    assocFind (applyOps noResolve emptyRegistry identityBreakingOps).paintMap
        "alice" = some 0 ∧
      ∃ p, (applyOps noResolve emptyRegistry identityBreakingOps).heap.get? 0
          = some p ∧
        (assocFind (applyOps noResolve emptyRegistry
          identityBreakingOps).knownPaints p.id).isSome :=
  ⟨by decide,
    registry_assignments_reference_known_ids noResolve identityBreakingOps
      "alice" 0 (by decide)⟩

/-- C3: `addPaint` is first-writer-wins: once a record with id `p` has been
inserted, a later `addPaint` of any record sharing that id (whatever its other
fields) leaves the entire registry state unchanged, and a user subsequently
assigned `p` still sees the first record's name. -/
theorem addPaint_first_writer_wins (resolve : String → Option Image)
    (s : SeventvPaints) (j1 j2 : PaintJson) (u : String) (p : Paint)
    (hparse : parsePaint resolve j1 = some p)
    (hnew : assocFind s.knownPaints j1.id = none)
    (hid : j2.id = j1.id) :
    addPaint resolve (addPaint resolve s j1) j2 = addPaint resolve s j1 ∧
      (lookupPaint
          (assignPaintToUser (addPaint resolve (addPaint resolve s j1) j2)
            j1.id u) u).map Paint.name = some j1.name := by
  have hs1 := addPaint_insert resolve s j1 p hnew hparse
  have hfound : assocFind (addPaint resolve s j1).knownPaints j1.id
      = some s.heap.length := by
    rw [hs1]
    dsimp only
    rw [assocFind_assocSet]
    simp
  have hnoop : addPaint resolve (addPaint resolve s j1) j2
      = addPaint resolve s j1 :=
    addPaint_known_id_noop _ _ _ (by rw [hid, hfound]; rfl)
  refine ⟨hnoop, ?_⟩
  rw [hnoop]
  have hassign : assignPaintToUser (addPaint resolve s j1) j1.id u
      = { addPaint resolve s j1 with
          paintMap :=
            assocSet (addPaint resolve s j1).paintMap u s.heap.length } := by
    unfold assignPaintToUser
    rw [hfound]
  rw [hassign]
  unfold lookupPaint getPaint
  dsimp only
  rw [assocFind_assocSet]
  simp only [if_pos rfl]
  have hheap : (addPaint resolve s j1).heap = s.heap ++ [p] := by rw [hs1]
  rw [hheap]
  have hget : (s.heap ++ [p]).get? s.heap.length = some p :=
    List.get?_concat_length _ _
  simp [hget, (parsePaint_id_name resolve j1 p hparse).2]

/-- Witness for C3: the second add uses the same id with a different name. -/
theorem addPaint_first_writer_wins_witness :
    parsePaint noResolve sampleLinearRecord = some sampleLinearPaint ∧
      assocFind emptyRegistry.knownPaints sampleLinearRecord.id = none ∧
      { sampleLinearRecord with name := "Other" }.id = sampleLinearRecord.id ∧
      (addPaint noResolve (addPaint noResolve emptyRegistry sampleLinearRecord)
          { sampleLinearRecord with name := "Other" }
        = addPaint noResolve emptyRegistry sampleLinearRecord ∧
        (lookupPaint
            (assignPaintToUser
              (addPaint noResolve
                (addPaint noResolve emptyRegistry sampleLinearRecord)
                { sampleLinearRecord with name := "Other" })
              sampleLinearRecord.id "alice") "alice").map Paint.name
          = some sampleLinearRecord.name) :=
  ⟨by decide, by decide, by decide,
    addPaint_first_writer_wins noResolve emptyRegistry sampleLinearRecord
      { sampleLinearRecord with name := "Other" } "alice" sampleLinearPaint
      (by decide) (by decide) (by decide)⟩

/-- The Boolean guard of `clearPaintFromUser` as an observable: does the
username currently hold an assigned paint whose id is `paintID`? -/
def assignedPaintIdIs (s : SeventvPaints) (userName paintID : String) : Bool :=
  match getPaint s userName with
  | some r =>
    match s.heap.get? r with
    | some p => p.id == paintID
    | none => false
  | none => false

/-- C4: `clearPaintFromUser` removes the username's assignment exactly when an
assignment exists and its paint's id equals `paintID`; in that case only that
one `paintMap` entry changes, and otherwise (in particular on an id mismatch)
the whole registry state is untouched, so a later lookup still returns the
previously assigned paint. -/
theorem clearPaintFromUser_spec (s : SeventvPaints) (pid u : String) :
    (assignedPaintIdIs s u pid = true →
       getPaint (clearPaintFromUser s pid u) u = none ∧
         (clearPaintFromUser s pid u).knownPaints = s.knownPaints ∧
         (clearPaintFromUser s pid u).heap = s.heap ∧
         (∀ v, v ≠ u →
           getPaint (clearPaintFromUser s pid u) v = getPaint s v)) ∧
      (assignedPaintIdIs s u pid = false → clearPaintFromUser s pid u = s) := by
  unfold assignedPaintIdIs clearPaintFromUser getPaint
  cases h1 : assocFind s.paintMap u with
  | none =>
    dsimp only
    exact ⟨fun ht => absurd ht (by simp), fun _ => rfl⟩
  | some r =>
    dsimp only
    cases h2 : s.heap.get? r with
    | none =>
      dsimp only
      exact ⟨fun ht => absurd ht (by simp), fun _ => rfl⟩
    | some p =>
      dsimp only
      by_cases h3 : p.id = pid
      · constructor
        · intro ht
          rw [if_pos h3]
          refine ⟨?_, rfl, rfl, ?_⟩
          · dsimp only
            rw [assocFind_assocErase]
            simp
          · intro v hv
            dsimp only
            rw [assocFind_assocErase]
            simp [hv]
        · intro hf
          rw [h3] at hf
          simp at hf
      · constructor
        · intro ht
          rw [beq_iff_eq] at ht
          exact absurd ht h3
        · intro hf
          rw [if_neg h3]

/-- A registry holding `p1` in `knownPaints` and assigned to alice. -/
def sampleAssignedState : SeventvPaints :=
  { heap := [sampleLinearPaint]
  , knownPaints := [("p1", 0)]
  , paintMap := [("alice", 0)] }

/-- Witness for C4: a matching clear removes alice's assignment; a clear with
the wrong id leaves the whole state unchanged. -/
theorem clearPaintFromUser_spec_witness :
    (assignedPaintIdIs sampleAssignedState "alice" "p1" = true ∧
       getPaint (clearPaintFromUser sampleAssignedState "p1" "alice") "alice"
         = none) ∧
      (assignedPaintIdIs sampleAssignedState "alice" "p2" = false ∧
        clearPaintFromUser sampleAssignedState "p2" "alice"
          = sampleAssignedState) :=
  ⟨⟨by decide,
      ((clearPaintFromUser_spec sampleAssignedState "p1" "alice").1
        (by decide)).1⟩,
    ⟨by decide,
      (clearPaintFromUser_spec sampleAssignedState "p2" "alice").2
        (by decide)⟩⟩

/-- C5: on any reachable registry state, `assignPaintToUser` with a known
`paintID` makes the username's lookup return exactly the stored shared paint,
whose id is `paintID`, unconditionally overwriting any prior assignment;
with an unknown `paintID` the whole registry state is left unchanged. -/
theorem assignPaintToUser_spec (resolve : String → Option Image)
    (ops : List Op) (pid u : String) :
    (∀ r,
        assocFind (applyOps resolve emptyRegistry ops).knownPaints pid
            = some r →
          getPaint
              (assignPaintToUser (applyOps resolve emptyRegistry ops) pid u) u
            = some r ∧
          ∃ p, (applyOps resolve emptyRegistry ops).heap.get? r = some p ∧
            p.id = pid) ∧
      (assocFind (applyOps resolve emptyRegistry ops).knownPaints pid = none →
        assignPaintToUser (applyOps resolve emptyRegistry ops) pid u
          = applyOps resolve emptyRegistry ops) := by
  constructor
  · intro r hfind
    constructor
    · unfold assignPaintToUser
      rw [hfind]
      unfold getPaint
      dsimp only
      rw [assocFind_assocSet]
      simp
    · exact (coherent_applyOps resolve ops).1 pid r hfind
  · intro hnone
    unfold assignPaintToUser
    rw [hnone]

/-- Witness for C5: assigning the known id `p1` to alice, and the unknown id
`p404` to bob, after a single `addPaint`. -/
theorem assignPaintToUser_spec_witness :
    (assocFind (applyOps noResolve emptyRegistry
          [Op.add sampleLinearRecord]).knownPaints "p1" = some 0 ∧
       (getPaint
            (assignPaintToUser
              (applyOps noResolve emptyRegistry [Op.add sampleLinearRecord])
              "p1" "alice") "alice" = some 0 ∧
         ∃ p, (applyOps noResolve emptyRegistry
               [Op.add sampleLinearRecord]).heap.get? 0 = some p ∧
           p.id = "p1")) ∧
      (assocFind (applyOps noResolve emptyRegistry
            [Op.add sampleLinearRecord]).knownPaints "p404" = none ∧
        assignPaintToUser
            (applyOps noResolve emptyRegistry [Op.add sampleLinearRecord])
            "p404" "bob"
          = applyOps noResolve emptyRegistry [Op.add sampleLinearRecord]) :=
  ⟨⟨by decide,
      (assignPaintToUser_spec noResolve [Op.add sampleLinearRecord] "p1"
          "alice").1 0 (by decide)⟩,
    ⟨by decide,
      (assignPaintToUser_spec noResolve [Op.add sampleLinearRecord] "p404"
          "bob").2 (by decide)⟩⟩

/-- C8: a record whose `function` field is none of the six accepted spellings
parses to `none`, so `addPaint` leaves the registry unchanged, and during a
bulk merge the record is skipped: removing it from the batch yields the same
resulting state, so every sibling record is processed identically. -/
theorem parsePaint_unknown_function_skipped (resolve : String → Option Image)
    (j : PaintJson)
    (h : j.function ∉ ["LINEAR_GRADIENT", "linear-gradient", "RADIAL_GRADIENT",
        "radial-gradient", "URL", "url"]) :
    parsePaint resolve j = none ∧
      (∀ s, addPaint resolve s j = s) ∧
      (∀ s, mergeRecord resolve s j = s) ∧
      (∀ s pre post,
        bulkMerge resolve s (pre ++ j :: post)
          = bulkMerge resolve s (pre ++ post)) := by
  simp only [List.mem_cons, List.not_mem_nil, or_false, not_or] at h
  have hparse : parsePaint resolve j = none := by
    unfold parsePaint
    split_ifs with hA hB hC
    · exact absurd hA (by tauto)
    · exact absurd hB (by tauto)
    · exact absurd hC (by tauto)
    · rfl
  have hmerge : ∀ s, mergeRecord resolve s j = s := by
    intro s
    unfold mergeRecord
    rw [hparse]
  refine ⟨hparse, ?_, hmerge, ?_⟩
  · intro s
    unfold addPaint
    split
    · rfl
    · rw [hparse]
  · intro s pre post
    unfold bulkMerge
    rw [List.foldl_append, List.foldl_append, List.foldl_cons, hmerge]

/-- A record with an unrecognized `function` value. -/
def unknownFunctionRecord : PaintJson :=
  { sampleLinearRecord with id := "p2", function := "unknown-thing" }

/-- Witness for C8 on an `unknown-thing` record inside a two-record batch. -/
theorem parsePaint_unknown_function_skipped_witness :
    (unknownFunctionRecord.function ∉ ["LINEAR_GRADIENT", "linear-gradient",
        "RADIAL_GRADIENT", "radial-gradient", "URL", "url"]) ∧
      parsePaint noResolve unknownFunctionRecord = none ∧
      addPaint noResolve emptyRegistry unknownFunctionRecord = emptyRegistry ∧
      mergeRecord noResolve emptyRegistry unknownFunctionRecord
        = emptyRegistry ∧
      bulkMerge noResolve emptyRegistry
          ([sampleLinearRecord] ++ unknownFunctionRecord :: [])
        = bulkMerge noResolve emptyRegistry ([sampleLinearRecord] ++ []) :=
  ⟨by decide,
    (parsePaint_unknown_function_skipped noResolve unknownFunctionRecord
      (by decide)).1,
    (parsePaint_unknown_function_skipped noResolve unknownFunctionRecord
      (by decide)).2.1 emptyRegistry,
    (parsePaint_unknown_function_skipped noResolve unknownFunctionRecord
      (by decide)).2.2.1 emptyRegistry,
    (parsePaint_unknown_function_skipped noResolve unknownFunctionRecord
      (by decide)).2.2.2 emptyRegistry [sampleLinearRecord] []⟩

/-- C9: when a bulk merge ends with a record listing users `u1` and `u2` that
parses to `p`, both users' lookups afterwards return the same shared
reference, that reference dereferences to `p` itself, and `p`'s id is the
record's id — one shared instance, not two copies. -/
theorem bulkMerge_users_share_instance (resolve : String → Option Image)
    (s : SeventvPaints) (pre : List PaintJson) (j : PaintJson) (p : Paint)
    (u1 u2 : String) (husers : j.users = [u1, u2])
    (hparse : parsePaint resolve j = some p) :
    ∃ r, getPaint (bulkMerge resolve s (pre ++ [j])) u1 = some r ∧
      getPaint (bulkMerge resolve s (pre ++ [j])) u2 = some r ∧
      (bulkMerge resolve s (pre ++ [j])).heap.get? r = some p ∧
      p.id = j.id := by
  have hid := (parsePaint_id_name resolve j p hparse).1
  have hsplit : bulkMerge resolve s (pre ++ [j])
      = mergeRecord resolve (bulkMerge resolve s pre) j := by
    unfold bulkMerge
    rw [List.foldl_append, List.foldl_cons, List.foldl_nil]
  have hmr : mergeRecord resolve (bulkMerge resolve s pre) j =
      { bulkMerge resolve s pre with
        heap := (bulkMerge resolve s pre).heap ++ [p]
        knownPaints := assocSet (bulkMerge resolve s pre).knownPaints j.id
          (bulkMerge resolve s pre).heap.length
        paintMap := j.users.foldl
          (fun m u => assocSet m u (bulkMerge resolve s pre).heap.length)
          (bulkMerge resolve s pre).paintMap } := by
    unfold mergeRecord
    rw [hparse]
  refine ⟨(bulkMerge resolve s pre).heap.length, ?_, ?_, ?_, hid⟩
  · rw [hsplit, hmr]
    unfold getPaint
    dsimp only
    rw [husers]
    exact assocFind_foldl_assocSet_mem _ _ _ _ (by simp)
  · rw [hsplit, hmr]
    unfold getPaint
    dsimp only
    rw [husers]
    exact assocFind_foldl_assocSet_mem _ _ _ _ (by simp)
  · rw [hsplit, hmr]
    dsimp only
    exact List.get?_concat_length _ _

/-- Witness for C9: a single-record batch whose record lists `u1` and `u2`. -/
theorem bulkMerge_users_share_instance_witness :
    ({ sampleLinearRecord with users := ["u1", "u2"] }.users = ["u1", "u2"]) ∧
      parsePaint noResolve { sampleLinearRecord with users := ["u1", "u2"] }
        = some sampleLinearPaint ∧
      ∃ r, getPaint (bulkMerge noResolve emptyRegistry
            ([] ++ [{ sampleLinearRecord with users := ["u1", "u2"] }])) "u1"
          = some r ∧
        getPaint (bulkMerge noResolve emptyRegistry
            ([] ++ [{ sampleLinearRecord with users := ["u1", "u2"] }])) "u2"
          = some r ∧
        (bulkMerge noResolve emptyRegistry
            ([] ++ [{ sampleLinearRecord with
              users := ["u1", "u2"] }])).heap.get? r
          = some sampleLinearPaint ∧
        sampleLinearPaint.id
          = { sampleLinearRecord with users := ["u1", "u2"] }.id :=
  ⟨rfl, by decide,
    bulkMerge_users_share_instance noResolve emptyRegistry []
      { sampleLinearRecord with users := ["u1", "u2"] } sampleLinearPaint
      "u1" "u2" rfl (by decide)⟩

/-- C10: `addPaint` never modifies the username-to-paint assignment map: on
any reachable registry state and for every input record (duplicate id,
successful parse or failed parse alike), `paintMap` is unchanged and every
username's lookup returns the same result before and after the call. -/
theorem addPaint_preserves_assignments (resolve : String → Option Image)
    (ops : List Op) (j : PaintJson) :
    (addPaint resolve (applyOps resolve emptyRegistry ops) j).paintMap
        = (applyOps resolve emptyRegistry ops).paintMap ∧
      ∀ u,
        lookupPaint (addPaint resolve (applyOps resolve emptyRegistry ops) j) u
          = lookupPaint (applyOps resolve emptyRegistry ops) u := by
  have hA := (coherent_applyOps resolve ops).2
  have hpm : (addPaint resolve (applyOps resolve emptyRegistry ops) j).paintMap
      = (applyOps resolve emptyRegistry ops).paintMap := by
    unfold addPaint
    split
    · rfl
    · cases hp : parsePaint resolve j with
      | none => rfl
      | some p => rfl
  refine ⟨hpm, ?_⟩
  intro u
  unfold lookupPaint getPaint
  rw [hpm]
  cases hfind : assocFind (applyOps resolve emptyRegistry ops).paintMap u with
  | none => rfl
  | some r =>
    obtain ⟨q, hq, -⟩ := hA u r hfind
    show (addPaint resolve (applyOps resolve emptyRegistry ops) j).heap.get? r
        = (applyOps resolve emptyRegistry ops).heap.get? r
    rw [hq]
    unfold addPaint
    split
    · exact hq
    · cases hp : parsePaint resolve j with
      | none => exact hq
      | some p =>
        dsimp only
        exact heap_get_append _ _ _ _ hq
